import Mathlib

/-!
# Adeptus bug tracker: issue editor and bug types

A shallow embedding of `src/bugtypes.h` (`QueryResult`, `BugInfo`,
`BugHistoryItem`) and of `src/bugeditor.cpp` (`BugEditor::edit`, `initEdit`,
`save`, `saveNew`, `saveEdit`, `reject`, `bugDeleted` and the registry
`__BugEditor_openedWindows`), followed by the properties established about them.

Conventions of the embedding:

* `QString` is a Lean `String`; `tr` is the identity (no translation loaded).
* C++ `int` is `Int`; none of the embedded code does arithmetic on it.
* `QDateTime` is an optional instant (`none` is the null date-time).
* Qt library calls the code relies on (`QString::trimmed`, `QString::arg`,
  `QMap`) are modelled after the Qt 5 implementation.
* Calls into parts of the application that are not part of the embedded sources
  are inputs of the model (the fields of `Env`), and every user-visible or
  storage-visible action is recorded as an `Effect`.
-/

namespace Adeptus

/-! ## Qt strings -/

/-- The Qt test `QString::isEmpty`: the string has no characters. -/
def QString.isEmpty (s : String) : Bool := s.data.isEmpty

/-- The Unicode separator categories (Zs, Zl, Zp) above U+00A0, as consulted by
`QChar::isSpace_helper`. -/
def QChar.isSpace_helper (u : Nat) : Bool :=
  u == 0x1680 || (0x2000 ≤ u && u ≤ 0x200a) || u == 0x2028 || u == 0x2029 ||
    u == 0x202f || u == 0x205f || u == 0x3000

/-- The Qt test `QChar::isSpace(uint ucs4)`. -/
def QChar.isSpace (c : Char) : Bool :=
  c.toNat == 0x20 || (0x09 ≤ c.toNat && c.toNat ≤ 0x0d) ||
    (c.toNat > 127 && (c.toNat == 0x85 || c.toNat == 0xa0 || QChar.isSpace_helper c.toNat))

/-- The Qt function `QString::trimmed`: whitespace is removed from the end, then
from the start. -/
def QString.trimmed (s : String) : String :=
  ⟨((s.data.reverse.dropWhile QChar.isSpace).reverse).dropWhile QChar.isSpace⟩

/-- The Qt function `QChar::digitValue` on the ASCII digits (`none` stands for -1). -/
def QChar.digitValue (c : Char) : Option Nat :=
  if 48 ≤ c.toNat ∧ c.toNat ≤ 57 then some (c.toNat - 48) else none

/-- The one or two digits of a place marker; the result is the marker's number
and the text after the marker. -/
def QString.escapeDigits : List Char → Option (Nat × List Char)
  | [] => none
  | c :: cs =>
    match QChar.digitValue c with
    | none => none
    | some d =>
      match cs with
      | [] => some (d, [])
      | c2 :: cs2 =>
        match QChar.digitValue c2 with
        | some d2 => some (10 * d + d2, cs2)
        | none => some (d, c2 :: cs2)

/-- A place marker read right after a `%`: an optional `L`, then the digits. -/
def QString.escapeAfterPercent : List Char → Option (Nat × List Char)
  | [] => none
  | c :: cs => if c = 'L' then QString.escapeDigits cs else QString.escapeDigits (c :: cs)

/-- The Qt helper `findArgEscapes`: the lowest place-marker number in the text
(`none` when the text has no place marker). The first argument bounds the number
of scanning steps; the length of the text is enough. -/
def QString.findArgEscapes : Nat → List Char → Option Nat
  | _, [] => none
  | 0, _ :: _ => none
  | fuel + 1, c :: cs =>
    if c = '%' then
      match QString.escapeAfterPercent cs with
      | some (n, rest) =>
        match QString.findArgEscapes fuel rest with
        | some m => some (min n m)
        | none => some n
      | none => QString.findArgEscapes fuel cs
    else QString.findArgEscapes fuel cs

/-- The Qt helper `replaceArgEscapes`: every place marker whose number is
`minEscape` is replaced by `arg`; all other text is copied. -/
def QString.replaceArgEscapes (minEscape : Nat) (arg : List Char) : Nat → List Char → List Char
  | _, [] => []
  | 0, c :: cs => c :: cs
  | fuel + 1, c :: cs =>
    if c = '%' then
      match QString.escapeAfterPercent cs with
      | some (n, rest) =>
        if n = minEscape then arg ++ QString.replaceArgEscapes minEscape arg fuel rest
        else c :: QString.replaceArgEscapes minEscape arg fuel cs
      | none => c :: QString.replaceArgEscapes minEscape arg fuel cs
    else c :: QString.replaceArgEscapes minEscape arg fuel cs

/-- The Qt function `QString::arg(const QString &a)`: the lowest-numbered place
marker of `s` is replaced by `a`; a string without place marker is returned as is. -/
def QString.arg (s a : String) : String :=
  match QString.findArgEscapes s.data.length s.data with
  | none => s
  | some m => ⟨QString.replaceArgEscapes m a.data s.data.length s.data⟩

/-- The Qt function `QString::arg(int a)` (base 10, no field width). -/
def QString.argInt (s : String) (a : Int) : String := QString.arg s (toString a)

/-! ## Qt value types -/

/-- A `QDateTime`: `none` is the null date-time, `some t` the instant `t`. -/
abbrev QDateTime := Option Int

/-- The `QVariant` payloads used by the bug model: integer, string, timestamp. -/
inductive QVariant where
  | int (i : Int)
  | string (s : String)
  | dateTime (d : QDateTime)
  deriving DecidableEq

/-- The C++ `QVariant::toInt`: the integer itself, the parsed text of a string
(0 when it is not a number), 0 for a date-time. -/
def QVariant.toInt : QVariant → Int
  | .int i => i
  | .string s => s.toInt?.getD 0
  | .dateTime _ => 0

/-! ## `bugtypes.h` -/

/-- The class template `QueryResult<TResult>`: an error text and a result. -/
structure QueryResult (TResult : Type) where
  _error : String
  _result : TResult
  deriving DecidableEq

namespace QueryResult

variable {TResult : Type}

/-- The accessor `TResult result() const`. -/
def result (q : QueryResult TResult) : TResult := q._result

/-- The accessor `const QString& error() const`. -/
def error (q : QueryResult TResult) : String := q._error

/-- The method `bool ok() const { return _error.isEmpty(); }`. -/
def ok (q : QueryResult TResult) : Bool := QString.isEmpty q._error

/-- The factory `static QueryResult fail(const QString& error)`. The one-argument
constructor leaves `_result` default-initialised; `uninit` is that value. -/
def fail (uninit : TResult) (error : String) : QueryResult TResult :=
  { _error := error, _result := uninit }

/-- The factory `static QueryResult ok(TResult result)` (C++ overloads the name
`ok`; here the factory is `okOf`). -/
def okOf (result : TResult) : QueryResult TResult :=
  { _error := "", _result := result }

end QueryResult

/-- The class `BugInfo`: the snapshot of one issue. -/
structure BugInfo where
  id : Int
  summary : String
  extra : String
  category : Int
  severity : Int
  priority : Int
  status : Int
  solution : Int
  repeat_ : Int
  created : QDateTime
  updated : QDateTime
  deriving DecidableEq

/-- The struct `BugHistoryItem::ChangedParam`. -/
structure ChangedParam where
  paramId : Int
  oldValue : QVariant
  newValue : QVariant
  deriving DecidableEq

/-- The Qt function `QVariant::toString`: the decimal text of an integer, a string
itself, and for a date-time its ISO text, given by `isoDate`. -/
def QVariant.toString (isoDate : QDateTime → String) : QVariant → String
  | .int i => ToString.toString i
  | .string s => s
  | .dateTime d => isoDate d

/-- The method `ChangedParam::str`:
`QString("%1: %2 -> %3").arg(paramId).arg(oldValue.toString()).arg(newValue.toString())`. -/
def ChangedParam.str (isoDate : QDateTime → String) (p : ChangedParam) : String :=
  QString.arg
    (QString.arg (QString.argInt "%1: %2 -> %3" p.paramId) (p.oldValue.toString isoDate))
    (p.newValue.toString isoDate)

/-- The class `BugHistoryItem`. -/
structure BugHistoryItem where
  number : Int
  comment : String
  moment : QDateTime
  changedParams : List ChangedParam
  deriving DecidableEq

/-- A default-constructed `BugHistoryItem`: `number = 0`, empty comment, null
moment, no changed parameters. -/
def BugHistoryItem.default : BugHistoryItem :=
  { number := 0, comment := "", moment := none, changedParams := [] }

/-- The method `bool isValid() const { return number > 0; }`. -/
def BugHistoryItem.isValid (h : BugHistoryItem) : Bool := decide (h.number > 0)

/-! ## The history diff (`BugComparer`) -/

/-- The ten tracked fields of a `BugInfo`, in the order of their declaration. -/
inductive BugField where
  | summary | extra | category | severity | priority | status | solution | repeat_
  | created | updated
  deriving DecidableEq

/-- The tracked fields in declared order. -/
def BugField.all : List BugField :=
  [.summary, .extra, .category, .severity, .priority, .status, .solution, .repeat_,
   .created, .updated]

/-- The value of a tracked field of a snapshot, as a `QVariant`. -/
def BugInfo.value (b : BugInfo) : BugField → QVariant
  | .summary => .string b.summary
  | .extra => .string b.extra
  | .category => .int b.category
  | .severity => .int b.severity
  | .priority => .int b.priority
  | .status => .int b.status
  | .solution => .int b.solution
  | .repeat_ => .int b.repeat_
  | .created => .dateTime b.created
  | .updated => .dateTime b.updated

/-- Modelled from the spec: the comparison inside `BugComparer::writeHistory`, which
is not part of the embedded sources. The fields are visited in the fixed declared
order; a field yields a `ChangedParam` (field identifier, old value, new value)
only when its old and new values differ under exact equality. `col` gives the
stable integer identifier of each field (the `COL_` constants). -/
def BugComparer.diff (col : BugField → Int) (oldValues newValues : BugInfo) :
    List ChangedParam :=
  (if oldValues.summary ≠ newValues.summary then
    [⟨col .summary, .string oldValues.summary, .string newValues.summary⟩] else []) ++
  (if oldValues.extra ≠ newValues.extra then
    [⟨col .extra, .string oldValues.extra, .string newValues.extra⟩] else []) ++
  (if oldValues.category ≠ newValues.category then
    [⟨col .category, .int oldValues.category, .int newValues.category⟩] else []) ++
  (if oldValues.severity ≠ newValues.severity then
    [⟨col .severity, .int oldValues.severity, .int newValues.severity⟩] else []) ++
  (if oldValues.priority ≠ newValues.priority then
    [⟨col .priority, .int oldValues.priority, .int newValues.priority⟩] else []) ++
  (if oldValues.status ≠ newValues.status then
    [⟨col .status, .int oldValues.status, .int newValues.status⟩] else []) ++
  (if oldValues.solution ≠ newValues.solution then
    [⟨col .solution, .int oldValues.solution, .int newValues.solution⟩] else []) ++
  (if oldValues.repeat_ ≠ newValues.repeat_ then
    [⟨col .repeat_, .int oldValues.repeat_, .int newValues.repeat_⟩] else []) ++
  (if oldValues.created ≠ newValues.created then
    [⟨col .created, .dateTime oldValues.created, .dateTime newValues.created⟩] else []) ++
  (if oldValues.updated ≠ newValues.updated then
    [⟨col .updated, .dateTime oldValues.updated, .dateTime newValues.updated⟩] else [])

/-- Modelled from the spec: `BugComparer::writeHistory(oldValues, newValues)`, which
is not part of the embedded sources (`computeAndPersist` in the spec). An empty
diff means no history write and success. A non-empty diff issues exactly one
append of a new history entry (number not yet assigned, empty comment, the given
timestamp) through the storage collaborator `appendHistory`, whose error text is
returned as is. The result is the returned text and the list of entries written,
each with the id of its record. -/
def BugComparer.writeHistory (col : BugField → Int) (moment : QDateTime)
    (appendHistory : Int → BugHistoryItem → String) (oldValues newValues : BugInfo) :
    String × List (Int × BugHistoryItem) :=
  let changedParams := BugComparer.diff col oldValues newValues
  if changedParams.isEmpty then ("", [])
  else
    let item : BugHistoryItem :=
      { number := 0, comment := "", moment := moment, changedParams := changedParams }
    (appendHistory oldValues.id item, [(oldValues.id, item)])

/-! ## `bugeditor.cpp`: the editor window -/

/-- The record `tableModel->record(n)` of the table `TABLE_BUGS`, by column. -/
structure BugRecord where
  Id : Int
  Summary : String
  Extra : String
  Category : Int
  Severity : Int
  Priority : Int
  Status : Int
  Solution : Int
  Repeat : Int
  Created : QDateTime
  Updated : QDateTime
  deriving DecidableEq

/-- The record a model returns for a row it does not have: every column null. -/
def BugRecord.null : BugRecord :=
  { Id := 0, Summary := "", Extra := "", Category := 0, Severity := 0, Priority := 0,
    Status := 0, Solution := 0, Repeat := 0, Created := none, Updated := none }

/-- Modelled from the spec: `SqlBugProvider::recordToBugInfo` is not part of the
embedded sources. Following `readSnapshot(recordId) -> Snapshot`, the snapshot holds
the record's column values, field by field. -/
def SqlBugProvider.recordToBugInfo (r : BugRecord) : BugInfo :=
  { id := r.Id, summary := r.Summary, extra := r.Extra, category := r.Category,
    severity := r.Severity, priority := r.Priority, status := r.Status,
    solution := r.Solution, repeat_ := r.Repeat, created := r.Created, updated := r.Updated }

/-- The macro `MODE_APPEND`. -/
def MODE_APPEND : Int := 0

/-- The macro `MODE_EDIT`. -/
def MODE_EDIT : Int := 1

/-- The members of a `BugEditor` window that the embedded functions read or write:
`currentId`, `mode`, the rows selected into `tableModel`, and the contents of the
mapped widgets (for a combo box, the id `WidgetHelper::selectedId` returns). -/
structure BugEditor where
  currentId : Int
  mode : Int
  rows : List BugRecord
  textSummary : String
  textExtra : String
  comboCategory : Int
  comboSeverity : Int
  comboPriority : Int
  comboRepeat : Int
  comboStatus : Int
  comboSolution : Int
  dateCreated : QDateTime
  dateUpdated : QDateTime
  summaryModified : Bool
  extraModified : Bool
  deriving DecidableEq

/-- What the embedded functions obtain from outside themselves during one call:
preferences, the clock, the user's answer to a question, and the outcome of
calls into the storage layer. -/
structure Env where
  /-- The flag `Preferences::instance().bugEditorEnableDates`. -/
  bugEditorEnableDates : Bool
  /-- The flag `Preferences::instance().confirmCancel`. -/
  confirmCancel : Bool
  /-- The answer to `Ori::Dlg::yes("Text has been changed. Cancel anyway?")`. -/
  cancelAnyway : Bool
  /-- The value of `QDateTime::currentDateTime()`. -/
  currentDateTime : QDateTime
  /-- The value of `BugManager::generateBugId()`. -/
  generateBugId : QVariant
  /-- Whether `tableModel->insertRecord(-1, record)` succeeds. -/
  insertRecord : Bool
  /-- Whether `mapper->submit()` succeeds. -/
  submit : Bool
  /-- The value of `SqlHelper::errorText(tableModel)`. -/
  errorText : String
  /-- The value of `BugComparer::writeHistory(oldValues, newValues)`. -/
  writeHistory : BugInfo → BugInfo → String
  /-- The test `BugManager::isInvalid(id)`. -/
  isInvalid : Int → Bool
  /-- The rows `tableModel->select()` yields under the filter `Id = id`. -/
  select : Int → List BugRecord
  /-- The indeterminate value of an `int` member before its first assignment. -/
  uninit : Int

/-- The actions of the editor that are visible outside it. A record handed to
`insertRecord` is given by its fields as passed to `SqlHelper::addField`, in call
order; `insertRecord` and `submit` carry whether the call succeeded. -/
inductive Effect where
  | warning (text : String)
  | error (text : String)
  | insertRecord (record : List (String × QVariant)) (succeeded : Bool)
  | submit (succeeded : Bool)
  | writeHistory (oldValues newValues : BugInfo)
  | raiseBugAdded (id : Int)
  | raiseBugChanged (id : Int)
  | close
  | show_ (wnd : Nat)
  | setActiveWindow (wnd : Nat)
  deriving DecidableEq

/-- The signals raised through `BugOperations`: `raiseBugAdded`, `raiseBugChanged`. -/
def Effect.isNotification : Effect → Bool
  | .raiseBugAdded _ => true
  | .raiseBugChanged _ => true
  | _ => false

namespace BugEditor

/-- The constructor `BugEditor::BugEditor`: `currentId` and `mode` are not
assigned, the model has no rows, and the widgets are empty. Every member is
assigned by `initEdit` before the window is used. -/
def new (env : Env) : BugEditor :=
  { currentId := env.uninit, mode := env.uninit, rows := [],
    textSummary := "", textExtra := "", comboCategory := 0, comboSeverity := 0,
    comboPriority := 0, comboRepeat := 0, comboStatus := 0, comboSolution := 0,
    dateCreated := none, dateUpdated := none, summaryModified := false,
    extraModified := false }

/-- The call `tableModel->record(n)`. -/
def record (e : BugEditor) (n : Nat) : BugRecord := e.rows.getD n BugRecord.null

/-- The mapping set up by `mapper->addMapping(widget, column)` in `initEdit`, read
from the model to the widgets (`setCurrentModelIndex`). -/
def populate (e : BugEditor) (r : BugRecord) : BugEditor :=
  { e with
    textSummary := r.Summary, textExtra := r.Extra, comboCategory := r.Category,
    comboSeverity := r.Severity, comboPriority := r.Priority, comboRepeat := r.Repeat,
    comboStatus := r.Status, comboSolution := r.Solution, dateCreated := r.Created,
    dateUpdated := r.Updated, summaryModified := false, extraModified := false }

/-- The same mapping written from the widgets to the model, as a successful
`mapper->submit()` does. -/
def commit (e : BugEditor) (r : BugRecord) : BugRecord :=
  { r with
    Summary := e.textSummary, Extra := e.textExtra, Category := e.comboCategory,
    Severity := e.comboSeverity, Priority := e.comboPriority, Repeat := e.comboRepeat,
    Status := e.comboStatus, Solution := e.comboSolution, Created := e.dateCreated,
    Updated := e.dateUpdated }

/-- The method `QString BugEditor::initEdit(int id)`. -/
def initEdit (env : Env) (e : BugEditor) (id : Int) : String × BugEditor :=
  let e1 := { e with currentId := id, rows := env.select id }
  if e1.rows.length ≠ 1 then
    (QString.argInt "Issue not found (#%1)" id, e1)
  else
    ("", { populate e1 (e1.record 0) with mode := MODE_EDIT })

/-- The slot `void BugEditor::reject()`. -/
def reject (env : Env) (e : BugEditor) : List Effect :=
  if env.confirmCancel && (e.summaryModified || e.extraModified) then
    if !env.cancelAnyway then [] else [Effect.close]
  else [Effect.close]

/-- The record `saveNew` builds with `SqlHelper::addField`: the generated id, the
trimmed texts, the selected ids and the dates, as (field name, value) in call order. -/
def newRecord (e : BugEditor) (id : QVariant) : List (String × QVariant) :=
  [("Id", id),
   ("Summary", .string (QString.trimmed e.textSummary)),
   ("Extra", .string (QString.trimmed e.textExtra)),
   ("Category", .int e.comboCategory),
   ("Severity", .int e.comboSeverity),
   ("Priority", .int e.comboPriority),
   ("Repeat", .int e.comboRepeat),
   ("Status", .int e.comboStatus),
   ("Solution", .int e.comboSolution),
   ("Created", .dateTime e.dateCreated),
   ("Updated", .dateTime e.dateUpdated)]

/-- The method `QString BugEditor::saveNew()`. The row added to `tableModel` by a
successful insert is recorded as an effect only: nothing reads the model afterwards. -/
def saveNew (env : Env) (e : BugEditor) : String × BugEditor × List Effect :=
  match env.generateBugId with
  | .string msg => (QString.arg "Unable to generate new issue id.\n\n%1" msg, e, [])
  | id =>
    if !env.insertRecord then
      (env.errorText, e, [Effect.insertRecord (e.newRecord id) false])
    else
      ("", { e with currentId := id.toInt }, [Effect.insertRecord (e.newRecord id) true])

/-- The method `QString BugEditor::saveEdit()`. -/
def saveEdit (env : Env) (e : BugEditor) : String × BugEditor × List Effect :=
  let e1 := if !env.bugEditorEnableDates then
      { e with dateUpdated := env.currentDateTime } else e
  let oldValues := SqlBugProvider.recordToBugInfo (e1.record 0)
  if !env.submit then
    (env.errorText, e1, [Effect.submit false])
  else
    let e2 := { e1 with rows := e1.rows.modifyHead (commit e1) }
    let newValues := SqlBugProvider.recordToBugInfo (e2.record 0)
    let res := env.writeHistory oldValues newValues
    ("", e2, [Effect.submit true, Effect.writeHistory oldValues newValues] ++
      (if !QString.isEmpty res then
        [Effect.error (QString.arg "Error while writing history:\n\n%1" res)] else []))

/-- The slot `void BugEditor::save()`. -/
def save (env : Env) (e : BugEditor) : BugEditor × List Effect :=
  if QString.isEmpty (QString.trimmed e.textSummary) then
    (e, [Effect.warning "Summary text must not be empty."])
  else
    let r : String × BugEditor × List Effect :=
      if e.mode = MODE_APPEND then saveNew env e
      else if e.mode = MODE_EDIT then saveEdit env e
      else ("", e, [])
    if !QString.isEmpty r.1 then
      (r.2.1, r.2.2 ++ [Effect.error (QString.arg "Unable to save issue.\n\n%1" r.1)])
    else
      (r.2.1, r.2.2 ++
        (if r.2.1.mode = MODE_APPEND then [Effect.raiseBugAdded r.2.1.currentId]
         else if r.2.1.mode = MODE_EDIT then [Effect.raiseBugChanged r.2.1.currentId]
         else []) ++ [Effect.close])

/-- The slot `void BugEditor::bugDeleted(int id)`. -/
def bugDeleted (e : BugEditor) (id : Int) : List Effect :=
  if id = e.currentId then [Effect.close] else []

end BugEditor

/-! ## `bugeditor.cpp`: the registry of opened windows -/

/-- The Qt function `QMap::insert`: the value of an existing key is replaced. -/
def QMap.insert (m : List (Int × Nat)) (key : Int) (value : Nat) : List (Int × Nat) :=
  (key, value) :: m.filter (fun kv => kv.1 != key)

/-- The state shared by the editor windows: the global map
`__BugEditor_openedWindows` (issue id to window address), the `BugEditor` objects
created by `edit` that currently exist (by address), and the next address
`new BugEditor` yields. -/
structure App where
  openedWindows : List (Int × Nat)
  windows : List (Nat × BugEditor)
  nextAddr : Nat
  deriving DecidableEq

/-- The state at program start: empty registry, no window. -/
def App.init : App := { openedWindows := [], windows := [], nextAddr := 0 }

/-- The static function `void BugEditor::edit(QWidget *parent, int id)`. -/
def App.edit (env : Env) (a : App) (id : Int) : App × List Effect :=
  if env.isInvalid id then (a, [])
  else
    match a.openedWindows.lookup id with
    | some wnd => (a, [Effect.show_ wnd, Effect.setActiveWindow wnd])
    | none =>
      let wnd := a.nextAddr
      let res := BugEditor.initEdit env (BugEditor.new env) id
      if !QString.isEmpty res.1 then
        ({ a with nextAddr := a.nextAddr + 1 }, [Effect.error res.1])
      else
        ({ openedWindows := QMap.insert a.openedWindows id wnd,
           windows := (wnd, res.2) :: a.windows,
           nextAddr := a.nextAddr + 1 },
         [Effect.show_ wnd, Effect.setActiveWindow wnd])

/-- The effect of `close()` on a window with `Qt::WA_DeleteOnClose`: the object is
destroyed. The destructor `BugEditor::~BugEditor` only stores the window geometry;
it does not touch `__BugEditor_openedWindows`. -/
def App.close (a : App) (wnd : Nat) : App :=
  { a with windows := a.windows.filter (fun w => w.1 != wnd) }

/-- Applies the effects one window emitted to the shared state: `close` destroys
the window. -/
def App.settle (a : App) (wnd : Nat) (effects : List Effect) : App :=
  if Effect.close ∈ effects then a.close wnd else a

/-- The events that reach the editor windows. -/
inductive Action where
  | edit (id : Int)
  | reject (wnd : Nat)
  | save (wnd : Nat)
  | bugDeleted (id : Int)
  deriving DecidableEq

/-- One event, handled to completion. An event addressed to a window that no
longer exists does nothing; `bugDeleted` is delivered to every existing window. -/
def App.step (env : Env) (a : App) : Action → App × List Effect
  | .edit id => a.edit env id
  | .reject wnd =>
    match a.windows.lookup wnd with
    | none => (a, [])
    | some e => (a.settle wnd (e.reject env), e.reject env)
  | .save wnd =>
    match a.windows.lookup wnd with
    | none => (a, [])
    | some e =>
      let r := e.save env
      let ws := a.windows.map (fun w => if w.1 = wnd then (w.1, r.1) else w)
      (App.settle { a with windows := ws } wnd r.2, r.2)
  | .bugDeleted id =>
    (a.windows.foldl (fun acc w => acc.settle w.1 (w.2.bugDeleted id)) a,
     (a.windows.map (fun w => w.2.bugDeleted id)).flatten)

/-- A sequence of events, each under its own environment. -/
def App.run (a : App) : List (Env × Action) → App
  | [] => a
  | (env, act) :: rest => App.run (a.step env act).1 rest

/-- The shape every reachable state has: the registry holds at most one entry per
id, and every address in the registry or among the existing windows was handed out
before (it is below `nextAddr`). -/
def App.WellFormed (a : App) : Prop :=
  (a.openedWindows.map Prod.fst).Nodup ∧
  (∀ kv ∈ a.openedWindows, kv.2 < a.nextAddr) ∧
  (∀ w ∈ a.windows, w.1 < a.nextAddr)

/-! ## Concrete inputs -/

/-- The field identifiers used in the examples: the position of the field. -/
def exampleCol : BugField → Int
  | .summary => 1 | .extra => 2 | .category => 3 | .severity => 4 | .priority => 5
  | .status => 6 | .solution => 7 | .repeat_ => 8 | .created => 9 | .updated => 10

/-- A stored issue with id 1, created and last updated at instant 100. -/
def storedRecord : BugRecord :=
  { Id := 1, Summary := "Crash on start", Extra := "", Category := 0, Severity := 1,
    Priority := 2, Status := 0, Solution := 0, Repeat := 0, Created := some 100,
    Updated := some 100 }

/-- An environment in which the date editors are disabled, the clock shows instant
200, every storage call succeeds, issue 1 is `storedRecord`, and the history is
written by the spec-modelled `BugComparer.writeHistory` over a store that accepts
every entry. -/
def datesDisabledEnv : Env :=
  { bugEditorEnableDates := false, confirmCancel := false, cancelAnyway := true,
    currentDateTime := some 200, generateBugId := .int 2, insertRecord := true,
    submit := true, errorText := "database error",
    writeHistory := fun o n =>
      (BugComparer.writeHistory exampleCol (some 200) (fun _ _ => "") o n).1,
    isInvalid := fun id => decide (id ≤ 0),
    select := fun id => if id = 1 then [storedRecord] else [],
    uninit := 0 }

/-- The same environment with the date editors enabled. -/
def datesEnabledEnv : Env := { datesDisabledEnv with bugEditorEnableDates := true }

/-- The same environment, except that the insert of a new record fails. -/
def insertFailsEnv : Env := { datesDisabledEnv with insertRecord := false }

/-- The same environment, except that the insert of a new record fails and
`SqlHelper::errorText` yields the empty text. -/
def silentInsertFailureEnv : Env :=
  { datesDisabledEnv with insertRecord := false, errorText := "" }

/-- An editor in append mode whose summary reads " New issue ". -/
def appendEditor : BugEditor :=
  { BugEditor.new datesDisabledEnv with
    currentId := -1, mode := MODE_APPEND, textSummary := " New issue " }

/-- An editor in append mode whose summary is a space and a tab. -/
def blankEditor : BugEditor :=
  { BugEditor.new datesDisabledEnv with
    currentId := -1, mode := MODE_APPEND, textSummary := " \t" }

/-- The events: issue 1 is opened for editing, then its window (address 0) is
cancelled. -/
def openThenCancel : List (Env × Action) :=
  [(datesDisabledEnv, .edit 1), (datesDisabledEnv, .reject 0)]

/-- A change of a summary from the text "%3" to the text "x", for field 1. -/
def markerChange : ChangedParam :=
  { paramId := 1, oldValue := .string "%3", newValue := .string "x" }

/-- The editor opened on issue 1 by `initEdit`, with no widget touched since. -/
def untouchedEditor : BugEditor :=
  (BugEditor.initEdit datesDisabledEnv (BugEditor.new datesDisabledEnv) 1).2

/-- The editor of issue 1 after the user changed the summary to "Crash on exit" and
the status to 3. -/
def editedEditor : BugEditor :=
  { untouchedEditor with textSummary := "Crash on exit", comboStatus := 3 }

/-! ## Properties of `bugtypes.h` -/

/-- `QString.isEmpty` holds of the empty string only. -/
theorem QString.isEmpty_iff (s : String) : QString.isEmpty s = true ↔ s = "" := by
  rcases s with ⟨l⟩
  cases l with
  | nil => exact ⟨fun _ => rfl, fun _ => rfl⟩
  | cons c cs =>
    constructor
    · intro h; simp [QString.isEmpty] at h
    · intro h; exact absurd (congrArg String.data h) (by simp)

/-- C5: a history item is valid exactly when its number is positive, whatever its
comment, moment and changed parameters are; a default-constructed item is not valid. -/
theorem isValid_iff_number_pos :
    (∀ h : BugHistoryItem, h.isValid = true ↔ h.number > 0) ∧
    BugHistoryItem.default.isValid = false ∧
    (∀ (n : Int) (c c' : String) (m m' : QDateTime) (ps ps' : List ChangedParam),
      BugHistoryItem.isValid ⟨n, c, m, ps⟩ = BugHistoryItem.isValid ⟨n, c', m', ps'⟩) := by
  refine ⟨fun h => ?_, ?_, ?_⟩
  · simp [BugHistoryItem.isValid]
  · decide
  · intros; rfl

/-- C4 (as stated, refuted): `fail` applied to the empty error text yields a
result whose `ok()` is true, i.e. one that reads as a success. -/
theorem fail_empty_error_reads_ok :
    (QueryResult.fail (0 : Int) "").ok = true ∧
    QueryResult.fail (0 : Int) "" = QueryResult.okOf (0 : Int) := by
  constructor
  · rfl
  · rfl

/-- C4 (amended): `okOf r` is ok, carries `r` and has an empty error; `fail e`
always carries `e` as its error, and its `ok()` is false exactly when `e` is
non-empty. -/
theorem queryResult_tagged_by_error_text {TResult : Type} :
    (∀ r : TResult, (QueryResult.okOf r).ok = true ∧ (QueryResult.okOf r).result = r ∧
      (QueryResult.okOf r).error = "") ∧
    (∀ (u : TResult) (e : String), (QueryResult.fail u e).error = e ∧
      ((QueryResult.fail u e).ok = false ↔ e ≠ "")) := by
  refine ⟨fun r => ⟨rfl, rfl, rfl⟩, fun u e => ⟨rfl, ?_⟩⟩
  simp [QueryResult.fail, QueryResult.ok, ← QString.isEmpty_iff]


/-- C3 (spec-modelled diff): the list of changed parameters is the list of the
tracked fields whose values differ, in declared order, each with its identifier and
its old and new value verbatim; so its length is the number of differing fields,
and a change of status alone yields the single entry for status. -/
theorem diff_lists_changed_fields_in_order (col : BugField → Int) :
    (∀ o n : BugInfo, BugComparer.diff col o n =
      (BugField.all.filter (fun f => o.value f ≠ n.value f)).map
        (fun f => ⟨col f, o.value f, n.value f⟩)) ∧
    (∀ o n : BugInfo, (BugComparer.diff col o n).length =
      (BugField.all.filter (fun f => o.value f ≠ n.value f)).length) ∧
    (∀ (b : BugInfo) (opened closed : Int), opened ≠ closed →
      BugComparer.diff col { b with status := opened } { b with status := closed } =
        [⟨col .status, .int opened, .int closed⟩]) := by
  have h1 : ∀ o n : BugInfo, BugComparer.diff col o n =
      (BugField.all.filter (fun f => o.value f ≠ n.value f)).map
        (fun f => ⟨col f, o.value f, n.value f⟩) := by
    intro o n
    have fm : ∀ (p : BugField → Bool) (g : BugField → ChangedParam) (f : BugField)
        (l : List BugField), ((f :: l).filter p).map g =
          (if p f = true then [g f] else []) ++ (l.filter p).map g := by
      intro p g f l
      by_cases hp : p f = true <;> simp [List.filter_cons, hp]
    unfold BugField.all BugComparer.diff
    simp only [fm, List.filter_nil, List.map_nil, List.append_nil, List.append_assoc]
    simp [BugInfo.value]
  refine ⟨h1, ?_, ?_⟩
  · intro o n; rw [h1, List.length_map]
  · intro b opened closed h
    simp [BugComparer.diff, h]

/-- C1: when `mapper->submit()` succeeds, `saveEdit` returns the empty string whatever
`writeHistory` returns; it submits once, calls `writeHistory` once with the snapshot
of the stored row before the submit and the snapshot of the row after it, and a
history error adds only an error dialog. The row after the call holds the contents
of the widgets as they were when `saveEdit` was called (`Updated` being the clock
when the date editors are disabled), it keeps its `Id`, and the widgets themselves
are left as they were, so nothing is rolled back. When the submit fails, `saveEdit`
returns `SqlHelper::errorText`, does nothing else and leaves the rows alone. -/
theorem saveEdit_history_error_is_shown_not_returned (env : Env) (e : BugEditor) :
    (env.submit = true →
      (e.saveEdit env).1 = "" ∧
      (e.saveEdit env).2.2 =
        [Effect.submit true,
         Effect.writeHistory (SqlBugProvider.recordToBugInfo (e.record 0))
           (SqlBugProvider.recordToBugInfo ((e.saveEdit env).2.1.record 0))] ++
        (if env.writeHistory (SqlBugProvider.recordToBugInfo (e.record 0))
              (SqlBugProvider.recordToBugInfo ((e.saveEdit env).2.1.record 0)) = "" then []
         else [Effect.error (QString.arg "Error while writing history:\n\n%1"
            (env.writeHistory (SqlBugProvider.recordToBugInfo (e.record 0))
              (SqlBugProvider.recordToBugInfo ((e.saveEdit env).2.1.record 0))))]) ∧
      (e.rows ≠ [] →
        (e.saveEdit env).2.1.record 0 =
          BugEditor.commit (e.saveEdit env).2.1 (e.record 0)) ∧
      (e.rows ≠ [] →
        (e.saveEdit env).2.1.record 0 =
          { Id := (e.record 0).Id, Summary := e.textSummary, Extra := e.textExtra,
            Category := e.comboCategory, Severity := e.comboSeverity,
            Priority := e.comboPriority, Status := e.comboStatus,
            Solution := e.comboSolution, Repeat := e.comboRepeat,
            Created := e.dateCreated,
            Updated := if env.bugEditorEnableDates = true then e.dateUpdated
              else env.currentDateTime }) ∧
      (e.saveEdit env).2.1.rows.tail = e.rows.tail ∧
      (e.saveEdit env).2.1.rows.length = e.rows.length ∧
      { (e.saveEdit env).2.1 with rows := e.rows } =
        { e with dateUpdated := if env.bugEditorEnableDates = true then e.dateUpdated
            else env.currentDateTime }) ∧
    (env.submit = false →
      (e.saveEdit env).1 = env.errorText ∧
      (e.saveEdit env).2.2 = [Effect.submit false] ∧
      (e.saveEdit env).2.1.rows = e.rows ∧
      (e.saveEdit env).2.1 =
        { e with dateUpdated := if env.bugEditorEnableDates = true then e.dateUpdated
            else env.currentDateTime }) := by
  have hrec : ∀ d : QDateTime, BugEditor.record { e with dateUpdated := d } 0 = e.record 0 :=
    fun _ => rfl
  constructor
  · intro hs
    cases hd : env.bugEditorEnableDates <;>
      simp only [BugEditor.saveEdit, hs, hd, Bool.not_true, Bool.not_false, if_true, if_false,
        Bool.false_eq_true, hrec, ← QString.isEmpty_iff, Bool.not_eq_true'] <;>
      refine ⟨trivial, ?_, ?_, ?_, ?_, ?_, ?_⟩
    · cases QString.isEmpty (env.writeHistory _ _) <;> simp
    · intro hne
      cases hr : e.rows with
      | nil => exact absurd hr hne
      | cons r rs => simp [BugEditor.record, BugEditor.commit, hr, List.modifyHead]
    · intro hne
      cases hr : e.rows with
      | nil => exact absurd hr hne
      | cons r rs => simp [BugEditor.record, BugEditor.commit, hr, List.modifyHead]
    · cases hr : e.rows <;> simp [List.modifyHead]
    · cases hr : e.rows <;> simp [List.modifyHead]
    · first | rfl | simp
    · cases QString.isEmpty (env.writeHistory _ _) <;> simp
    · intro hne
      cases hr : e.rows with
      | nil => exact absurd hr hne
      | cons r rs => simp [BugEditor.record, BugEditor.commit, hr, List.modifyHead]
    · intro hne
      cases hr : e.rows with
      | nil => exact absurd hr hne
      | cons r rs => simp [BugEditor.record, BugEditor.commit, hr, List.modifyHead]
    · cases hr : e.rows <;> simp [List.modifyHead]
    · cases hr : e.rows <;> simp [List.modifyHead]
    · first | rfl | simp
  · intro hs
    cases hd : env.bugEditorEnableDates <;> simp [BugEditor.saveEdit, hs, hd]

/-- C2 (as stated, refuted): with the date editors disabled, saving the untouched
editor of issue 1 passes `writeHistory` two snapshots that differ in `updated`
(100 before, the clock's 200 after), and one history entry is written. -/
theorem noop_edit_with_dates_disabled_writes_history :
    (BugEditor.initEdit datesDisabledEnv (BugEditor.new datesDisabledEnv) 1).1 = "" ∧
    untouchedEditor.commit (untouchedEditor.record 0) = untouchedEditor.record 0 ∧
    (untouchedEditor.saveEdit datesDisabledEnv).2.2 =
      [Effect.submit true,
       Effect.writeHistory (SqlBugProvider.recordToBugInfo storedRecord)
         { SqlBugProvider.recordToBugInfo storedRecord with updated := some 200 }] ∧
    BugComparer.writeHistory exampleCol (some 200) (fun _ _ => "")
        (SqlBugProvider.recordToBugInfo storedRecord)
        { SqlBugProvider.recordToBugInfo storedRecord with updated := some 200 } =
      ("", [(1, { number := 0, comment := "", moment := some 200,
                  changedParams := [⟨10, .dateTime (some 100), .dateTime (some 200)⟩] })]) := by
  decide

/-- No field differs between a snapshot and itself. -/
theorem BugComparer.diff_self (col : BugField → Int) (b : BugInfo) :
    BugComparer.diff col b b = [] := by
  simp [BugComparer.diff]

/-- C2 (amended): for an editor in edit mode whose widgets hold the values of the
stored row, a save whose submit succeeds passes `writeHistory` two equal snapshots
when the date editors are enabled or the clock equals the stored `Updated`: the
diff is empty, nothing is written and the save succeeds. With the date editors
disabled the snapshot after the save is the stored one with `updated` set to the
clock, so at most the field `updated` is listed. -/
theorem noop_edit_changes_at_most_updated (col : BugField → Int) (moment : QDateTime)
    (appendHistory : Int → BugHistoryItem → String) (env : Env) (e : BugEditor)
    (hrows : e.rows.length = 1)
    (hsame : e.commit (e.record 0) = e.record 0)
    (hsubmit : env.submit = true)
    (hhist : env.writeHistory =
      fun o n => (BugComparer.writeHistory col moment appendHistory o n).1) :
    (env.bugEditorEnableDates = true ∨ env.currentDateTime = (e.record 0).Updated →
      (e.saveEdit env).1 = "" ∧
      (e.saveEdit env).2.2 =
        [Effect.submit true,
         Effect.writeHistory (SqlBugProvider.recordToBugInfo (e.record 0))
           (SqlBugProvider.recordToBugInfo (e.record 0))] ∧
      BugComparer.diff col (SqlBugProvider.recordToBugInfo (e.record 0))
        (SqlBugProvider.recordToBugInfo (e.record 0)) = [] ∧
      BugComparer.writeHistory col moment appendHistory
        (SqlBugProvider.recordToBugInfo (e.record 0))
        (SqlBugProvider.recordToBugInfo (e.record 0)) = ("", [])) ∧
    (env.bugEditorEnableDates = false →
      (e.saveEdit env).1 = "" ∧
      (e.saveEdit env).2.2.take 2 =
        [Effect.submit true,
         Effect.writeHistory (SqlBugProvider.recordToBugInfo (e.record 0))
           { SqlBugProvider.recordToBugInfo (e.record 0) with
             updated := env.currentDateTime }] ∧
      BugComparer.diff col (SqlBugProvider.recordToBugInfo (e.record 0))
          { SqlBugProvider.recordToBugInfo (e.record 0) with
            updated := env.currentDateTime } =
        if (e.record 0).Updated = env.currentDateTime then []
        else [⟨col .updated, .dateTime (e.record 0).Updated,
               .dateTime env.currentDateTime⟩]) := by
  obtain ⟨r, hr⟩ : ∃ r, e.rows = [r] := by
    cases h : e.rows with
    | nil => simp [h] at hrows
    | cons r rs =>
      cases rs with
      | nil => exact ⟨r, rfl⟩
      | cons r2 rs2 => simp [h] at hrows
  have hrec : e.record 0 = r := by simp [BugEditor.record, hr]
  rw [hrec] at hsame ⊢
  rcases r with ⟨id, sm, ex, ca, se, pr, st, so, re, cr, up⟩
  simp only [BugEditor.commit, BugRecord.mk.injEq, true_and] at hsame
  obtain ⟨h1, h2, h3, h4, h5, h6, h7, h8, h9, h10⟩ := hsame
  constructor
  · intro hcase
    refine ⟨?_, ?_, BugComparer.diff_self col _, ?_⟩
    · cases hd : env.bugEditorEnableDates <;> simp [BugEditor.saveEdit, hsubmit, hd]
    · rcases hcase with hd | hnow
      · simp [BugEditor.saveEdit, hsubmit, hhist, hd, BugEditor.record, hr, List.modifyHead,
          BugEditor.commit, h1, h2, h3, h4, h5, h6, h7, h8, h9, h10, BugComparer.writeHistory,
          BugComparer.diff_self, QString.isEmpty]
      · simp only at hnow
        cases hd : env.bugEditorEnableDates <;>
          simp [BugEditor.saveEdit, hsubmit, hhist, hd, BugEditor.record, hr, List.modifyHead,
            BugEditor.commit, h1, h2, h3, h4, h5, h6, h7, h8, h9, h10, hnow,
            BugComparer.writeHistory, BugComparer.diff_self, QString.isEmpty]
    · simp [BugComparer.writeHistory, BugComparer.diff_self]
  · intro hd
    refine ⟨?_, ?_, ?_⟩
    · simp [BugEditor.saveEdit, hsubmit, hd]
    · simp [BugEditor.saveEdit, hsubmit, hd, BugEditor.record, hr, List.modifyHead,
        BugEditor.commit, h1, h2, h3, h4, h5, h6, h7, h8, h9, SqlBugProvider.recordToBugInfo]
    · simp [BugComparer.diff, SqlBugProvider.recordToBugInfo]

/-! ## Properties of `QString::trimmed` and `QString::arg` -/

/-- The trimmed text is empty exactly when every character of the text is a space. -/
theorem QString.trimmed_isEmpty_iff (s : String) :
    QString.isEmpty (QString.trimmed s) = true ↔ ∀ c ∈ s.data, QChar.isSpace c = true := by
  simp only [QString.isEmpty, QString.trimmed, List.isEmpty_iff, List.dropWhile_eq_nil_iff]
  constructor
  · intro h
    by_cases hm : s.data.reverse.dropWhile QChar.isSpace = []
    · rw [List.dropWhile_eq_nil_iff] at hm
      intro c hc
      exact hm c (List.mem_reverse.mpr hc)
    · have hh := List.head_dropWhile_not QChar.isSpace s.data.reverse hm
      have hmem : (s.data.reverse.dropWhile QChar.isSpace).head hm ∈
          (s.data.reverse.dropWhile QChar.isSpace).reverse :=
        List.mem_reverse.mpr (List.head_mem hm)
      rw [h _ hmem] at hh
      exact absurd hh (by simp)
  · intro h c hc
    have h1 : c ∈ s.data.reverse.dropWhile QChar.isSpace := List.mem_reverse.mp hc
    have h2 : c ∈ s.data.reverse := (List.dropWhile_sublist _).subset h1
    exact h c (List.mem_reverse.mp h2)

/-- The trimmed text does not start with a space. -/
theorem QString.trimmed_head (s : String) (c : Char)
    (h : (QString.trimmed s).data.head? = some c) : QChar.isSpace c = false := by
  have := List.head?_dropWhile_not QChar.isSpace
    ((s.data.reverse.dropWhile QChar.isSpace).reverse)
  simp only [QString.trimmed] at h
  rw [h] at this
  simpa using this

/-- The trimmed text does not end with a space. -/
theorem QString.trimmed_getLast (s : String) (c : Char)
    (h : (QString.trimmed s).data.getLast? = some c) : QChar.isSpace c = false := by
  simp only [QString.trimmed] at h
  have hsuf : (((s.data.reverse.dropWhile QChar.isSpace).reverse).dropWhile QChar.isSpace) <:+
      (s.data.reverse.dropWhile QChar.isSpace).reverse := List.dropWhile_suffix _
  obtain ⟨t, ht⟩ := hsuf
  have hlast : ((s.data.reverse.dropWhile QChar.isSpace).reverse).getLast? = some c := by
    rw [← ht, List.getLast?_append, h]; rfl
  rw [List.getLast?_reverse] at hlast
  have := List.head?_dropWhile_not QChar.isSpace s.data.reverse
  rw [hlast] at this
  simpa using this

/-- The text of a failed id generation is never empty. -/
theorem QString.arg_generate_ne_empty (msg : String) :
    QString.isEmpty (QString.arg "Unable to generate new issue id.\n\n%1" msg) = false :=
  rfl

/-- The text of a failed id generation differs from the empty string. -/
theorem QString.arg_generate_ne (msg : String) :
    QString.arg "Unable to generate new issue id.\n\n%1" msg ≠ "" := by
  intro h
  have := QString.arg_generate_ne_empty msg
  rw [(QString.isEmpty_iff _).mpr h] at this
  exact absurd this (by simp)

/-- A string is empty under `QString.isEmpty` or not, as it equals `""` or not. -/
theorem QString.isEmpty_eq_false_iff (s : String) : QString.isEmpty s = false ↔ s ≠ "" := by
  rw [Ne, ← QString.isEmpty_iff]; simp

/-- The empty string is empty. -/
theorem QString.isEmpty_empty : QString.isEmpty "" = true := rfl

/-- The shape of a `saveEdit` whose submit succeeded: the empty string, an editor
with the same `currentId` and `mode`, and the effects submit, `writeHistory`, and
at most one error dialog. -/
theorem BugEditor.saveEdit_of_submit (env : Env) (e : BugEditor) (hs : env.submit = true) :
    ∃ e2 o n tail, e.saveEdit env =
        ("", e2, Effect.submit true :: Effect.writeHistory o n :: tail) ∧
      e2.currentId = e.currentId ∧ e2.mode = e.mode ∧
      (tail = [] ∨ ∃ t, tail = [Effect.error t]) := by
  simp only [BugEditor.saveEdit, hs, Bool.not_true, Bool.false_eq_true, if_false]
  refine ⟨_, _, _, _, rfl, ?_, ?_, ?_⟩
  · cases env.bugEditorEnableDates <;> rfl
  · cases env.bugEditorEnableDates <;> rfl
  · have aux : ∀ (c : Prop) [Decidable c] (t : String),
        (if c then [Effect.error t] else []) = ([] : List Effect) ∨
        ∃ t2, (if c then [Effect.error t] else []) = [Effect.error t2] := by
      intro c _ t
      by_cases h : c <;> simp [h]
    exact aux _ _

/-- C7 (amended): a save with a non-blank summary, in append or edit mode, where a
failed insert comes with a non-empty error text, ends in exactly one of two ways. Either
`saveNew`/`saveEdit` returned the empty string: then the only notification raised is
`raiseBugAdded` (append) or `raiseBugChanged` (edit) carrying `currentId`, which in
append mode is the generated id, inserted with the new record, and the window is
closed. Or the returned string is non-empty: then the error is shown, no
notification is raised, `currentId` is unchanged and the window stays open. -/
theorem save_notifies_once_or_reports (env : Env) (e : BugEditor)
    (hsum : ∃ c ∈ e.textSummary.data, QChar.isSpace c = false)
    (hmode : e.mode = MODE_APPEND ∨ e.mode = MODE_EDIT)
    (herr : env.insertRecord = false → env.errorText ≠ "") :
    ((if e.mode = MODE_APPEND then (e.saveNew env).1 else (e.saveEdit env).1) = "" ∧
      (e.save env).2.filter Effect.isNotification =
        [if e.mode = MODE_APPEND then Effect.raiseBugAdded (e.save env).1.currentId
         else Effect.raiseBugChanged (e.save env).1.currentId] ∧
      (e.mode = MODE_APPEND →
        Effect.insertRecord (e.newRecord env.generateBugId) true ∈ (e.save env).2 ∧
        (e.newRecord env.generateBugId).lookup "Id" = some env.generateBugId ∧
        (e.save env).1.currentId = env.generateBugId.toInt) ∧
      (e.save env).2.getLast? = some Effect.close ∧
      (e.save env).2.count Effect.close = 1) ∨
    ((if e.mode = MODE_APPEND then (e.saveNew env).1 else (e.saveEdit env).1) ≠ "" ∧
      (e.save env).2.getLast? = some (Effect.error (QString.arg "Unable to save issue.\n\n%1"
        (if e.mode = MODE_APPEND then (e.saveNew env).1 else (e.saveEdit env).1))) ∧
      (e.save env).2.filter Effect.isNotification = [] ∧
      (e.save env).1.currentId = e.currentId ∧
      Effect.close ∉ (e.save env).2) := by
  have hblank : QString.isEmpty (QString.trimmed e.textSummary) = false := by
    cases h : QString.isEmpty (QString.trimmed e.textSummary) with
    | false => rfl
    | true =>
      obtain ⟨c, hc, hsp⟩ := hsum
      rw [(QString.trimmed_isEmpty_iff _).mp h c hc] at hsp
      exact absurd hsp (by simp)
  rcases hmode with hm | hm
  · cases hid : env.generateBugId with
    | string msg =>
      right
      simp [BugEditor.save, BugEditor.saveNew, hblank, hm, hid, QString.arg_generate_ne,
        QString.arg_generate_ne_empty, Effect.isNotification]
    | int i =>
      cases hins : env.insertRecord
      · right
        have herr1 := herr hins
        have herr2 := (QString.isEmpty_eq_false_iff _).mpr herr1
        simp [BugEditor.save, BugEditor.saveNew, hblank, hm, hid, hins, herr1, herr2,
          Effect.isNotification]
      · left
        simp [BugEditor.save, BugEditor.saveNew, hblank, hm, hid, hins, Effect.isNotification,
          QString.isEmpty_empty, BugEditor.newRecord, List.lookup, QVariant.toInt]
    | dateTime d =>
      cases hins : env.insertRecord
      · right
        have herr1 := herr hins
        have herr2 := (QString.isEmpty_eq_false_iff _).mpr herr1
        simp [BugEditor.save, BugEditor.saveNew, hblank, hm, hid, hins, herr1, herr2,
          Effect.isNotification]
      · left
        simp [BugEditor.save, BugEditor.saveNew, hblank, hm, hid, hins, Effect.isNotification,
          QString.isEmpty_empty, BugEditor.newRecord, List.lookup, QVariant.toInt]
  · have hne : e.mode ≠ MODE_APPEND := by rw [hm]; decide
    cases hsub : env.submit
    · by_cases herr1 : env.errorText = ""
      · left
        cases hd : env.bugEditorEnableDates <;>
          simp [BugEditor.save, BugEditor.saveEdit, hblank, hm, hsub, hd, herr1,
            QString.isEmpty_empty, Effect.isNotification, MODE_EDIT, MODE_APPEND,
            List.count_cons]
      · right
        have herr2 := (QString.isEmpty_eq_false_iff _).mpr herr1
        cases hd : env.bugEditorEnableDates <;>
          simp [BugEditor.save, BugEditor.saveEdit, hblank, hm, hsub, hd, herr1, herr2,
            Effect.isNotification, MODE_EDIT, MODE_APPEND]
    · left
      obtain ⟨e2, o, n, tail, hr, hc, hmo, ht⟩ := BugEditor.saveEdit_of_submit env e hsub
      have hmo2 : e2.mode = 1 := by rw [hmo, hm]; rfl
      have hsave : e.save env = (e2, Effect.submit true :: Effect.writeHistory o n ::
          (tail ++ [Effect.raiseBugChanged e2.currentId, Effect.close])) := by
        simp [BugEditor.save, hblank, hm, hr, QString.isEmpty_empty, hmo2, MODE_EDIT,
          MODE_APPEND]
      rw [hsave, hr, hm]
      rcases ht with rfl | ⟨t, rfl⟩ <;>
        simp [Effect.isNotification, MODE_EDIT, MODE_APPEND, List.count_cons]

/-- The effects of `saveEdit` never include a record insert. -/
theorem BugEditor.saveEdit_no_insert (env : Env) (e : BugEditor)
    (record : List (String × QVariant)) (ok : Bool) :
    Effect.insertRecord record ok ∉ (e.saveEdit env).2.2 := by
  cases hsub : env.submit
  · cases hd : env.bugEditorEnableDates <;> simp [BugEditor.saveEdit, hsub, hd]
  · obtain ⟨e2, o, n, tail, hr, -, -, ht⟩ := BugEditor.saveEdit_of_submit env e hsub
    rw [hr]
    rcases ht with rfl | ⟨t, rfl⟩ <;> simp

/-- A record insert among the effects of `saveNew` is the insert of `newRecord`. -/
theorem BugEditor.saveNew_insert (env : Env) (e : BugEditor)
    (record : List (String × QVariant)) (ok : Bool)
    (h : Effect.insertRecord record ok ∈ (e.saveNew env).2.2) :
    record = e.newRecord env.generateBugId := by
  cases hid : env.generateBugId <;> cases hins : env.insertRecord <;>
    simp [BugEditor.saveNew, hid, hins] at h <;> exact h.1

/-- A record insert among the effects of `save` is the insert of `newRecord`, and
the trimmed summary was not empty. -/
theorem BugEditor.save_insert (env : Env) (e : BugEditor)
    (record : List (String × QVariant)) (ok : Bool)
    (h : Effect.insertRecord record ok ∈ (e.save env).2) :
    QString.isEmpty (QString.trimmed e.textSummary) = false ∧
      record = e.newRecord env.generateBugId := by
  cases hb : QString.isEmpty (QString.trimmed e.textSummary)
  · refine ⟨rfl, ?_⟩
    have key : ∀ r : String × BugEditor × List Effect,
        Effect.insertRecord record ok ∈
          (if (!QString.isEmpty r.1) = true then
            (r.2.1, r.2.2 ++ [Effect.error (QString.arg "Unable to save issue.\n\n%1" r.1)])
          else
            (r.2.1, r.2.2 ++
              (if r.2.1.mode = MODE_APPEND then [Effect.raiseBugAdded r.2.1.currentId]
               else if r.2.1.mode = MODE_EDIT then [Effect.raiseBugChanged r.2.1.currentId]
               else []) ++ [Effect.close])).2 →
        Effect.insertRecord record ok ∈ r.2.2 := by
      intro r hr
      by_cases h1 : (!QString.isEmpty r.1) = true
      · rw [if_pos h1] at hr
        simpa using hr
      · rw [if_neg h1] at hr
        by_cases h2 : r.2.1.mode = MODE_APPEND
        · rw [if_pos h2] at hr
          simpa using hr
        · rw [if_neg h2] at hr
          by_cases h3 : r.2.1.mode = MODE_EDIT
          · rw [if_pos h3] at hr
            simpa using hr
          · rw [if_neg h3] at hr
            simpa using hr
    have hmem : Effect.insertRecord record ok ∈
        (if e.mode = MODE_APPEND then e.saveNew env
         else if e.mode = MODE_EDIT then e.saveEdit env else ("", e, [])).2.2 := by
      simp only [BugEditor.save, hb, Bool.false_eq_true, if_false] at h
      exact key _ h
    by_cases hm : e.mode = MODE_APPEND
    · rw [if_pos hm] at hmem
      exact BugEditor.saveNew_insert env e record ok hmem
    · rw [if_neg hm] at hmem
      by_cases hm2 : e.mode = MODE_EDIT
      · rw [if_pos hm2] at hmem
        exact absurd hmem (BugEditor.saveEdit_no_insert env e record ok)
      · rw [if_neg hm2] at hmem
        simp at hmem
  · simp [BugEditor.save, hb] at h

/-- C8: a save whose summary is empty or all whitespace only shows a warning: the
editor is unchanged and nothing is inserted, submitted, written to the history,
notified or closed. Hence every record that `save` inserts carries as `Summary` the
trimmed summary text, which is non-empty and neither starts nor ends with a space. -/
theorem save_rejects_blank_summary (env : Env) (e : BugEditor) :
    ((∀ c ∈ e.textSummary.data, QChar.isSpace c = true) →
      e.save env = (e, [Effect.warning "Summary text must not be empty."])) ∧
    (∀ (record : List (String × QVariant)) (ok : Bool),
      Effect.insertRecord record ok ∈ (e.save env).2 →
      ∃ s : String, record.lookup "Summary" = some (QVariant.string s) ∧
        s = QString.trimmed e.textSummary ∧ s ≠ "" ∧
        (∀ c, s.data.head? = some c → QChar.isSpace c = false) ∧
        (∀ c, s.data.getLast? = some c → QChar.isSpace c = false)) := by
  constructor
  · intro h
    have hb := (QString.trimmed_isEmpty_iff e.textSummary).mpr h
    simp [BugEditor.save, hb]
  · intro record ok h
    obtain ⟨hb, hrec⟩ := BugEditor.save_insert env e record ok h
    refine ⟨QString.trimmed e.textSummary, ?_, rfl, (QString.isEmpty_eq_false_iff _).mp hb,
      QString.trimmed_head _, QString.trimmed_getLast _⟩
    rw [hrec]
    simp [BugEditor.newRecord, List.lookup]

/-! ## Properties of the registry -/

/-- Inserting under a key the map does not hold adds one entry and keeps the rest. -/
theorem QMap.insert_of_lookup_none (m : List (Int × Nat)) (key : Int) (value : Nat)
    (h : m.lookup key = none) : QMap.insert m key value = (key, value) :: m := by
  have hf : m.filter (fun kv => kv.1 != key) = m := by
    induction m with
    | nil => rfl
    | cons kv rest ih =>
      obtain ⟨k, v⟩ := kv
      by_cases hk : key = k
      · subst hk
        simp [List.lookup] at h
      · have hk2 : (key == k) = false := by simpa using hk
        rw [List.lookup, hk2] at h
        have hk3 : (k != key) = true := by simpa using fun h2 : k = key => hk h2.symm
        rw [List.filter_cons, if_pos hk3, ih h]
  rw [QMap.insert, hf]

/-- A key whose lookup fails is not among the keys. -/
theorem QMap.not_mem_keys_of_lookup_none (m : List (Int × Nat)) (key : Int)
    (h : m.lookup key = none) : key ∉ m.map Prod.fst := by
  induction m with
  | nil => simp
  | cons kv rest ih =>
    obtain ⟨k, v⟩ := kv
    by_cases hk : key = k
    · subst hk
      simp [List.lookup] at h
    · have hk2 : (key == k) = false := by simpa using hk
      rw [List.lookup, hk2] at h
      simp only [List.map_cons, List.mem_cons, not_or]
      exact ⟨hk, ih h⟩

/-- Closing windows changes neither the registry nor the allocator, and removes
windows only. -/
theorem App.settle_spec (a : App) (wnd : Nat) (effects : List Effect) :
    (a.settle wnd effects).openedWindows = a.openedWindows ∧
    (a.settle wnd effects).nextAddr = a.nextAddr ∧
    ∀ w ∈ (a.settle wnd effects).windows, w ∈ a.windows := by
  unfold App.settle
  split
  · refine ⟨rfl, rfl, ?_⟩
    intro w hw
    exact (List.mem_filter.mp hw).1
  · exact ⟨rfl, rfl, fun _ h => h⟩

/-- The same for `bugDeleted`, which settles every window in turn. -/
theorem App.foldl_settle_spec (f : Nat × BugEditor → List Effect)
    (ws : List (Nat × BugEditor)) (a : App) :
    (ws.foldl (fun acc w => acc.settle w.1 (f w)) a).openedWindows = a.openedWindows ∧
    (ws.foldl (fun acc w => acc.settle w.1 (f w)) a).nextAddr = a.nextAddr ∧
    ∀ w ∈ (ws.foldl (fun acc w => acc.settle w.1 (f w)) a).windows, w ∈ a.windows := by
  induction ws generalizing a with
  | nil => exact ⟨rfl, rfl, fun _ h => h⟩
  | cons w rest ih =>
    obtain ⟨h1, h2, h3⟩ := ih (a.settle w.1 (f w))
    obtain ⟨g1, g2, g3⟩ := App.settle_spec a w.1 (f w)
    simp only [List.foldl_cons]
    exact ⟨h1.trans g1, h2.trans g2, fun x hx => g3 x (h3 x hx)⟩

/-- The static function `edit` keeps a state well-formed. -/
theorem App.edit_wellFormed (env : Env) (a : App) (id : Int) (h : a.WellFormed) :
    (a.edit env id).1.WellFormed := by
  obtain ⟨hk, hr, hw⟩ := h
  unfold App.edit
  cases hinv : env.isInvalid id
  · cases hl : a.openedWindows.lookup id with
    | some wnd => exact ⟨hk, hr, hw⟩
    | none =>
      cases hres : QString.isEmpty (BugEditor.initEdit env (BugEditor.new env) id).1
      · simp only [hres, Bool.not_false, Bool.false_eq_true, if_true]
        exact ⟨hk, fun kv h => Nat.lt_succ_of_lt (hr kv h),
          fun w h => Nat.lt_succ_of_lt (hw w h)⟩
      · simp only [hres, Bool.not_true, Bool.false_eq_true, if_false,
          QMap.insert_of_lookup_none _ _ _ hl]
        refine ⟨?_, ?_, ?_⟩
        · simp only [List.map_cons, List.nodup_cons]
          exact ⟨QMap.not_mem_keys_of_lookup_none _ _ hl, hk⟩
        · intro kv hkv
          rcases List.mem_cons.mp hkv with rfl | hkv
          · exact Nat.lt_succ_self _
          · exact Nat.lt_succ_of_lt (hr kv hkv)
        · intro w hw2
          rcases List.mem_cons.mp hw2 with rfl | hw2
          · exact Nat.lt_succ_self _
          · exact Nat.lt_succ_of_lt (hw w hw2)
  · exact ⟨hk, hr, hw⟩

/-- Every event keeps a state well-formed. -/
theorem App.step_wellFormed (env : Env) (a : App) (act : Action) (h : a.WellFormed) :
    (a.step env act).1.WellFormed := by
  cases act with
  | edit id => exact App.edit_wellFormed env a id h
  | reject wnd =>
    obtain ⟨hk, hr, hw⟩ := h
    simp only [App.step]
    cases hl : a.windows.lookup wnd with
    | none => exact ⟨hk, hr, hw⟩
    | some e =>
      obtain ⟨g1, g2, g3⟩ := App.settle_spec a wnd (e.reject env)
      refine ⟨?_, ?_, ?_⟩
      · simp only [g1]; exact hk
      · simp only [g1, g2]; exact hr
      · simp only [g2]; exact fun w hw2 => hw w (g3 w hw2)
  | save wnd =>
    obtain ⟨hk, hr, hw⟩ := h
    simp only [App.step]
    cases hl : a.windows.lookup wnd with
    | none => exact ⟨hk, hr, hw⟩
    | some e =>
      obtain ⟨g1, g2, g3⟩ := App.settle_spec
        { a with windows := (a.windows.map
            (fun w => if w.1 = wnd then (w.1, (e.save env).1) else w)) } wnd (e.save env).2
      refine ⟨?_, ?_, ?_⟩
      · simp only [g1]; exact hk
      · simp only [g1, g2]; exact hr
      · simp only [g2]
        intro w hw2
        obtain ⟨w0, hw0, rfl⟩ := List.mem_map.mp (g3 w hw2)
        have := hw w0 hw0
        split <;> simpa using this
  | bugDeleted id =>
    obtain ⟨hk, hr, hw⟩ := h
    simp only [App.step]
    obtain ⟨g1, g2, g3⟩ := App.foldl_settle_spec (fun w => w.2.bugDeleted id) a.windows a
    refine ⟨?_, ?_, ?_⟩
    · simp only [g1]; exact hk
    · simp only [g1, g2]; exact hr
    · simp only [g2]; exact fun w hw2 => hw w (g3 w hw2)

/-- Every state reached from a well-formed state is well-formed. -/
theorem App.run_wellFormed (steps : List (Env × Action)) (a : App) (h : a.WellFormed) :
    (a.run steps).WellFormed := by
  induction steps generalizing a with
  | nil => exact h
  | cons step rest ih =>
    obtain ⟨env, act⟩ := step
    exact ih _ (App.step_wellFormed env a act h)

/-- C6: `edit` over the registry. An invalid id does nothing; a registered id
leaves the whole state unchanged and shows the registered window; an `initEdit`
error leaves registry and windows unchanged and shows the error; otherwise one
entry from `id` to the new window is added and every other id keeps its entry.
Every state reached from the initial one has at most one registry entry per id, and
a second `edit` of the same id shows the window the first one showed. -/
theorem edit_opens_or_reuses_one_window_per_id :
    (∀ (env : Env) (a : App) (id : Int), env.isInvalid id = true →
      a.edit env id = (a, [])) ∧
    (∀ (env : Env) (a : App) (id : Int) (wnd : Nat), env.isInvalid id = false →
      a.openedWindows.lookup id = some wnd →
      a.edit env id = (a, [Effect.show_ wnd, Effect.setActiveWindow wnd])) ∧
    (∀ (env : Env) (a : App) (id : Int), env.isInvalid id = false →
      a.openedWindows.lookup id = none →
      (BugEditor.initEdit env (BugEditor.new env) id).1 ≠ "" →
      (a.edit env id).1.openedWindows = a.openedWindows ∧
      (a.edit env id).1.windows = a.windows ∧
      (a.edit env id).2 = [Effect.error (BugEditor.initEdit env (BugEditor.new env) id).1]) ∧
    (∀ (env : Env) (a : App) (id : Int), env.isInvalid id = false →
      a.openedWindows.lookup id = none →
      (BugEditor.initEdit env (BugEditor.new env) id).1 = "" →
      (a.edit env id).1.openedWindows = (id, a.nextAddr) :: a.openedWindows ∧
      (a.edit env id).1.windows =
        (a.nextAddr, (BugEditor.initEdit env (BugEditor.new env) id).2) :: a.windows ∧
      (a.edit env id).2 = [Effect.show_ a.nextAddr, Effect.setActiveWindow a.nextAddr] ∧
      (a.edit env id).1.openedWindows.lookup id = some a.nextAddr ∧
      (∀ j : Int, j ≠ id →
        (a.edit env id).1.openedWindows.lookup j = a.openedWindows.lookup j)) ∧
    (∀ steps : List (Env × Action), (App.init.run steps).WellFormed) ∧
    (∀ (env : Env) (a : App) (id : Int) (wnd : Nat),
      Effect.show_ wnd ∈ (a.edit env id).2 →
      ((a.edit env id).1.edit env id).2 =
        [Effect.show_ wnd, Effect.setActiveWindow wnd]) := by
  have hnew : ∀ (env : Env) (a : App) (id : Int), env.isInvalid id = false →
      a.openedWindows.lookup id = none →
      (BugEditor.initEdit env (BugEditor.new env) id).1 = "" →
      a.edit env id =
        ({ openedWindows := (id, a.nextAddr) :: a.openedWindows,
           windows := (a.nextAddr, (BugEditor.initEdit env (BugEditor.new env) id).2) ::
             a.windows,
           nextAddr := a.nextAddr + 1 },
         [Effect.show_ a.nextAddr, Effect.setActiveWindow a.nextAddr]) := by
    intro env a id hinv hl hres
    have hres2 := (QString.isEmpty_iff _).mpr hres
    simp [App.edit, hinv, hl, hres2, QMap.insert_of_lookup_none _ _ _ hl]
  have hold : ∀ (env : Env) (a : App) (id : Int) (wnd : Nat), env.isInvalid id = false →
      a.openedWindows.lookup id = some wnd →
      a.edit env id = (a, [Effect.show_ wnd, Effect.setActiveWindow wnd]) := by
    intro env a id wnd hinv hl
    simp [App.edit, hinv, hl]
  have herr : ∀ (env : Env) (a : App) (id : Int), env.isInvalid id = false →
      a.openedWindows.lookup id = none →
      (BugEditor.initEdit env (BugEditor.new env) id).1 ≠ "" →
      a.edit env id = ({ a with nextAddr := a.nextAddr + 1 },
        [Effect.error (BugEditor.initEdit env (BugEditor.new env) id).1]) := by
    intro env a id hinv hl hres
    have hres2 := (QString.isEmpty_eq_false_iff _).mpr hres
    simp [App.edit, hinv, hl, hres2]
  refine ⟨?_, hold, ?_, ?_, ?_, ?_⟩
  · intro env a id hinv
    simp [App.edit, hinv]
  · intro env a id hinv hl hres
    rw [herr env a id hinv hl hres]
    exact ⟨rfl, rfl, rfl⟩
  · intro env a id hinv hl hres
    rw [hnew env a id hinv hl hres]
    refine ⟨rfl, rfl, rfl, ?_, ?_⟩
    · simp [List.lookup]
    · intro j hj
      have : (j == id) = false := by simpa using hj
      simp [List.lookup, this]
  · intro steps
    refine App.run_wellFormed steps App.init ⟨?_, ?_, ?_⟩ <;> simp [App.init]
  · intro env a id wnd hshow
    cases hinv : env.isInvalid id
    · cases hl : a.openedWindows.lookup id with
      | some w =>
        rw [hold env a id w hinv hl] at hshow ⊢
        simp only [List.mem_cons, Effect.show_.injEq, List.mem_singleton, reduceCtorEq,
          or_false, List.not_mem_nil] at hshow
        subst hshow
        exact congrArg Prod.snd (hold env a id wnd hinv hl)
      | none =>
        by_cases hres : (BugEditor.initEdit env (BugEditor.new env) id).1 = ""
        · rw [hnew env a id hinv hl hres] at hshow ⊢
          simp only [List.mem_cons, Effect.show_.injEq, List.mem_singleton, reduceCtorEq,
            or_false, List.not_mem_nil] at hshow
          subst hshow
          exact congrArg Prod.snd (hold env _ id _ hinv (by simp [List.lookup]))
        · rw [herr env a id hinv hl hres] at hshow
          simp at hshow
    · simp [App.edit, hinv] at hshow

/-- Scanning for place markers passes over text that has no `%`. -/
theorem QString.findArgEscapes_skip (p rest : List Char) (k : Nat) (hp : '%' ∉ p) :
    QString.findArgEscapes (p.length + k) (p ++ rest) = QString.findArgEscapes k rest := by
  induction p with
  | nil => simp
  | cons c cs ih =>
    have hc : c ≠ '%' := fun h => hp (h ▸ List.mem_cons_self _ _)
    have hcs : '%' ∉ cs := fun h => hp (List.mem_cons_of_mem _ h)
    have hlen : (c :: cs).length + k = (cs.length + k) + 1 := by
      simp only [List.length_cons]; omega
    rw [hlen, List.cons_append, QString.findArgEscapes, if_neg hc, ih hcs]

/-- Replacing place markers copies text that has no `%`. -/
theorem QString.replaceArgEscapes_skip (m : Nat) (a p rest : List Char) (k : Nat)
    (hp : '%' ∉ p) :
    QString.replaceArgEscapes m a (p.length + k) (p ++ rest) =
      p ++ QString.replaceArgEscapes m a k rest := by
  induction p with
  | nil => simp
  | cons c cs ih =>
    have hc : c ≠ '%' := fun h => hp (h ▸ List.mem_cons_self _ _)
    have hcs : '%' ∉ cs := fun h => hp (List.mem_cons_of_mem _ h)
    have hlen : (c :: cs).length + k = (cs.length + k) + 1 := by
      simp only [List.length_cons]; omega
    rw [hlen, List.cons_append, QString.replaceArgEscapes, if_neg hc, ih hcs, List.cons_append]

/-- A decimal digit character is not `%`. -/
theorem Nat.digitChar_ne_percent (d : Nat) (h : d < 10) : Nat.digitChar d ≠ '%' := by
  revert d
  decide

/-- The decimal digits of a number contain no `%`. -/
theorem Nat.toDigitsCore_no_percent (fuel : Nat) :
    ∀ (n : Nat) (ds : List Char), '%' ∉ ds → '%' ∉ Nat.toDigitsCore 10 fuel n ds := by
  induction fuel with
  | zero => intro n ds h; simpa [Nat.toDigitsCore] using h
  | succ f ih =>
    intro n ds h
    have hd : '%' ∉ Nat.digitChar (n % 10) :: ds := by
      intro hm
      rcases List.mem_cons.mp hm with h1 | h1
      · exact Nat.digitChar_ne_percent _ (Nat.mod_lt _ (by decide)) h1.symm
      · exact h h1
    simp only [Nat.toDigitsCore]
    split
    · exact hd
    · exact ih _ _ hd

/-- The decimal text of an integer contains no `%`. -/
theorem Int.toString_no_percent (i : Int) : '%' ∉ (toString i).data := by
  cases i with
  | ofNat n =>
    show '%' ∉ (Nat.repr n).data
    exact Nat.toDigitsCore_no_percent _ _ _ (by simp)
  | negSucc n =>
    show '%' ∉ ("-" ++ Nat.repr (n + 1)).data
    rw [String.data_append]
    intro h
    rcases List.mem_append.mp h with h1 | h1
    · revert h1; decide
    · exact Nat.toDigitsCore_no_percent _ _ _ (by simp) h1

/-- When the old value's text has no `%`, `str()` is the plain concatenation. -/
theorem ChangedParam.str_of_no_percent (isoDate : QDateTime → String) (p : ChangedParam)
    (h : '%' ∉ (p.oldValue.toString isoDate).data) :
    p.str isoDate = toString p.paramId ++ ": " ++ p.oldValue.toString isoDate ++ " -> " ++
      p.newValue.toString isoDate := by
  unfold ChangedParam.str
  generalize p.oldValue.toString isoDate = o at h
  generalize p.newValue.toString isoDate = n
  have h1 : QString.argInt "%1: %2 -> %3" p.paramId =
      ⟨(toString p.paramId).data ++ ": %2 -> %3".data⟩ := rfl
  have hP := Int.toString_no_percent p.paramId
  generalize toString p.paramId = P at h1 hP
  have h2 : QString.arg ⟨P.data ++ ": %2 -> %3".data⟩ o =
      ⟨(P.data ++ ": ".data ++ o.data) ++ " -> %3".data⟩ := by
    have hf : QString.findArgEscapes ": %2 -> %3".data.length ": %2 -> %3".data = some 2 := by
      decide
    have hr : QString.replaceArgEscapes 2 o.data ": %2 -> %3".data.length ": %2 -> %3".data =
        ": ".data ++ o.data ++ " -> %3".data := rfl
    unfold QString.arg
    simp only [List.length_append, QString.findArgEscapes_skip _ _ _ hP,
      QString.replaceArgEscapes_skip _ _ _ _ _ hP, hf, hr, List.append_assoc]
  have hQ : '%' ∉ P.data ++ ": ".data ++ o.data := by
    intro hm
    rcases List.mem_append.mp hm with hm | hm
    · rcases List.mem_append.mp hm with hm | hm
      · exact hP hm
      · revert hm; decide
    · exact h hm
  have h3 : QString.arg ⟨(P.data ++ ": ".data ++ o.data) ++ " -> %3".data⟩ n =
      ⟨(P.data ++ ": ".data ++ o.data) ++ (" -> ".data ++ n.data)⟩ := by
    have hf : QString.findArgEscapes " -> %3".data.length " -> %3".data = some 3 := by
      decide
    have hr : QString.replaceArgEscapes 3 n.data " -> %3".data.length " -> %3".data =
        " -> ".data ++ (n.data ++ []) := rfl
    unfold QString.arg
    simp only [List.length_append _ " -> %3".data,
      QString.findArgEscapes_skip _ _ _ hQ,
      QString.replaceArgEscapes_skip _ _ _ _ _ hQ, hf, hr, List.append_nil]
  rw [h1, h2, h3]
  apply String.ext
  simp [String.data_append]

/-! ## Behaviour at concrete inputs -/

/-- C2 at a concrete input: the untouched editor of issue 1 satisfies the premises,
and with the date editors enabled its save hands `writeHistory` the stored snapshot
twice. -/
theorem noop_edit_changes_at_most_updated_witness :
    untouchedEditor.rows.length = 1 ∧
    untouchedEditor.commit (untouchedEditor.record 0) = untouchedEditor.record 0 ∧
    datesEnabledEnv.submit = true ∧
    (untouchedEditor.saveEdit datesEnabledEnv).2.2 =
      [Effect.submit true,
       Effect.writeHistory (SqlBugProvider.recordToBugInfo (untouchedEditor.record 0))
         (SqlBugProvider.recordToBugInfo (untouchedEditor.record 0))] :=
  ⟨by decide, by decide, rfl,
    ((noop_edit_changes_at_most_updated exampleCol (some 200) (fun _ _ => "")
      datesEnabledEnv untouchedEditor (by decide) (by decide) rfl rfl).1 (Or.inl rfl)).2.1⟩

/-- C1 at a concrete input: the user changed summary and status of issue 1; after
`saveEdit` the stored row holds the new summary and status, and the clock as
`Updated`. -/
theorem saveEdit_history_error_is_shown_not_returned_witness :
    datesDisabledEnv.submit = true ∧ editedEditor.rows ≠ [] ∧
    (editedEditor.saveEdit datesDisabledEnv).2.1.record 0 =
      { storedRecord with Summary := "Crash on exit", Status := 3, Updated := some 200 } :=
  ⟨rfl, by decide,
    ((saveEdit_history_error_is_shown_not_returned datesDisabledEnv editedEditor).1
      rfl).2.2.2.1 (by decide) |>.trans (by decide)⟩

/-- C7 (as stated, refuted): the append editor has a non-blank summary; the insert
fails with an empty error text, so `saveNew` returns the empty string; `save` then
raises `raiseBugAdded` with the old `currentId` -1 and closes the window, although
the generated id 2 was not inserted and `currentId` is not 2. -/
theorem save_after_silent_insert_failure_notifies :
    (∃ c ∈ appendEditor.textSummary.data, QChar.isSpace c = false) ∧
    appendEditor.mode = MODE_APPEND ∧
    (appendEditor.saveNew silentInsertFailureEnv).1 = "" ∧
    (appendEditor.save silentInsertFailureEnv).2 =
      [Effect.insertRecord (appendEditor.newRecord (.int 2)) false,
       Effect.raiseBugAdded (-1), Effect.close] ∧
    (appendEditor.save silentInsertFailureEnv).1.currentId = -1 ∧
    silentInsertFailureEnv.generateBugId.toInt = 2 :=
  ⟨⟨'N', by decide, by decide⟩, rfl, by decide, by decide, by decide, by decide⟩

/-- C7 at concrete inputs: the append editor with summary " New issue " satisfies
the premises; when the insert succeeds its save raises exactly `raiseBugAdded 2`,
2 being the generated id, and when the insert fails with the text "database error"
no notification is raised. -/
theorem save_notifies_once_or_reports_witness :
    (∃ c ∈ appendEditor.textSummary.data, QChar.isSpace c = false) ∧
    (appendEditor.mode = MODE_APPEND ∨ appendEditor.mode = MODE_EDIT) ∧
    (insertFailsEnv.insertRecord = false → insertFailsEnv.errorText ≠ "") ∧
    ((appendEditor.save datesDisabledEnv).2.filter Effect.isNotification =
        [Effect.raiseBugAdded 2] ∧
      (appendEditor.save datesDisabledEnv).1.currentId = 2) ∧
    ((appendEditor.save insertFailsEnv).2.filter Effect.isNotification = [] ∧
      (appendEditor.save insertFailsEnv).1.currentId = -1) := by
  have h1 : ∃ c ∈ appendEditor.textSummary.data, QChar.isSpace c = false :=
    ⟨'N', by decide, by decide⟩
  have h2 : appendEditor.mode = MODE_APPEND ∨ appendEditor.mode = MODE_EDIT := Or.inl rfl
  have h3 : insertFailsEnv.insertRecord = false → insertFailsEnv.errorText ≠ "" :=
    fun _ => by decide
  have h4 : datesDisabledEnv.insertRecord = false → datesDisabledEnv.errorText ≠ "" :=
    fun _ => by decide
  refine ⟨h1, h2, h3, ?_, ?_⟩
  · rcases save_notifies_once_or_reports datesDisabledEnv appendEditor h1 h2 h4 with h | h
    · exact ⟨h.2.1.trans (by decide), (h.2.2.1 rfl).2.2⟩
    · exact absurd h.2.2.2.2 (by decide)
  · rcases save_notifies_once_or_reports insertFailsEnv appendEditor h1 h2 h3 with h | h
    · exact absurd h.1 (by decide)
    · exact ⟨h.2.2.1, h.2.2.2.1.trans (by decide)⟩

/-- C6 at a concrete input: issue 1 is valid, not registered and found, so `edit`
registers it under the new address 0; issue 2 is not found, so `edit` leaves the
registry empty. -/
theorem edit_opens_or_reuses_one_window_per_id_witness :
    (App.init.edit datesDisabledEnv 1).1.openedWindows = [(1, 0)] ∧
    (App.init.edit datesDisabledEnv 2).1.openedWindows = [] :=
  ⟨(edit_opens_or_reuses_one_window_per_id.2.2.2.1 datesDisabledEnv App.init 1 rfl rfl
      (by decide)).1,
   (edit_opens_or_reuses_one_window_per_id.2.2.1 datesDisabledEnv App.init 2 rfl rfl
      (by decide)).1⟩

/-- C8 at concrete inputs: the blank editor only gets the warning, and the record
inserted for the append editor carries the summary "New issue". -/
theorem save_rejects_blank_summary_witness :
    blankEditor.save datesDisabledEnv =
      (blankEditor, [Effect.warning "Summary text must not be empty."]) ∧
    ∃ s : String, (appendEditor.newRecord (.int 2)).lookup "Summary" =
        some (QVariant.string s) ∧ s = "New issue" := by
  constructor
  · exact (save_rejects_blank_summary datesDisabledEnv blankEditor).1 (by decide)
  · obtain ⟨s, h1, h2, -⟩ := (save_rejects_blank_summary datesDisabledEnv appendEditor).2
      (appendEditor.newRecord (.int 2)) true (by decide)
    exact ⟨s, h1, h2.trans (by decide)⟩

/-- C9 (the code at the failing input): after issue 1 is opened and its window is
cancelled, the window no longer exists but the registry still maps 1 to its
address; a further `edit` of 1 creates no window and shows that address. In
general no event removes an entry from the registry. -/
theorem closed_window_stays_registered :
    (App.init.run openThenCancel).windows = [] ∧
    (App.init.run openThenCancel).openedWindows = [(1, 0)] ∧
    (App.init.run openThenCancel).edit datesDisabledEnv 1 =
      (App.init.run openThenCancel, [Effect.show_ 0, Effect.setActiveWindow 0]) ∧
    (∀ (env : Env) (a : App) (act : Action) (kv : Int × Nat),
      kv ∈ a.openedWindows → kv ∈ (a.step env act).1.openedWindows) := by
  refine ⟨by decide, by decide, by decide, ?_⟩
  intro env a act kv hkv
  cases act with
  | edit id =>
    simp only [App.step, App.edit]
    cases hinv : env.isInvalid id
    · cases hl : a.openedWindows.lookup id with
      | some wnd => exact hkv
      | none =>
        cases hres : QString.isEmpty (BugEditor.initEdit env (BugEditor.new env) id).1
        · simpa [hres] using hkv
        · simp only [hres, Bool.not_true, Bool.false_eq_true, if_false,
            QMap.insert_of_lookup_none _ _ _ hl]
          exact List.mem_cons_of_mem _ hkv
    · exact hkv
  | reject wnd =>
    simp only [App.step]
    cases hl : a.windows.lookup wnd with
    | none => exact hkv
    | some e =>
      simp only [(App.settle_spec a wnd (e.reject env)).1]
      exact hkv
  | save wnd =>
    simp only [App.step]
    cases hl : a.windows.lookup wnd with
    | none => exact hkv
    | some e =>
      simp only [(App.settle_spec _ wnd (e.save env).2).1]
      exact hkv
  | bugDeleted id =>
    simp only [App.step,
      (App.foldl_settle_spec (fun w => w.2.bugDeleted id) a.windows a).1]
    exact hkv

/-- C10 (the code at the failing input): for the change of field 1 from "%3" to
"x", `str()` yields "1: x -> x", not the concatenation "1: %3 -> x". The
concatenation is what `str()` yields whenever the old value's text has no `%`. -/
theorem str_substitutes_markers_inside_values :
    markerChange.str (fun _ => "") = "1: x -> x" ∧
    markerChange.str (fun _ => "") ≠
      toString markerChange.paramId ++ ": " ++ "%3" ++ " -> " ++ "x" ∧
    (∀ (isoDate : QDateTime → String) (p : ChangedParam),
      '%' ∉ (p.oldValue.toString isoDate).data →
      p.str isoDate = toString p.paramId ++ ": " ++ p.oldValue.toString isoDate ++
        " -> " ++ p.newValue.toString isoDate) :=
  ⟨by decide, by decide, ChangedParam.str_of_no_percent⟩

end Adeptus
